import Mathlib

/-!
Verification of the `whatsapp-agent` (SchoolChatSummarizer) core pipeline:
shallow embedding of the Filter, Extractor and Classifier modules
(`src/modules/filter/MessageFilter.ts`, `src/modules/extractor/ContentExtractor.ts`,
`src/modules/classifier/ContentClassifier.ts`) together with theorems settling
the specification claims about them.

Modelling conventions:
* JavaScript numbers in the scoring pipeline are modelled as rationals (`ℚ`);
  the decimal weights involved (0.1 … 0.6) are exact in the source and all
  threshold comparisons used by the claims are robust.
* The regular-expression primitives (`PATTERN.test(text)`) are opaque boolean
  observations of a message text.  A text is therefore represented by the
  vector of those observations plus the two token counts used by
  `calculateImportance` (`TextFeatures` below).  Every concrete instance used
  in a theorem is annotated with an actual message string realising it.
* Timestamp strings are represented by the string together with the result of
  the JavaScript `new Date(str)` parse (epoch milliseconds, or `none` for an
  invalid date) and whether `date.toISOString()` reproduces the string
  (`TSVal` below).  Validation reads the parse fields, the dedup key reads the
  string, exactly as the source does.
* JavaScript `Date(year, month, day)` construction (used by
  `parseNumericDate`) is modelled by the ECMAScript `MakeDay` semantics:
  normalise the month into the year, then add `day - 1` days to the first of
  that month, rolling across month boundaries.  The rolling is implemented
  with a fuel argument large enough for every reachable input so that the
  definitions stay structurally recursive and kernel-computable.
-/

namespace WhatsappAgent

/-! ## Extractor / Classifier text model

`TextFeatures` records, for the *processed* text of a message (after
`normalizeText` and `expandAbbreviations`), every regex observation the
scoring functions in `ContentExtractor.calculateImportance` and
`ContentClassifier.calculate*Score` perform, plus the token counts of
`text.toLowerCase().split(/\s+/)`.

Note the JavaScript quirk faithfully reflected here: `"".split(/\s+/)`
returns `[""]`, and the empty token is not a stop word, so the empty string
has `totalWords = 1`, `contentWords = 1`.
-/

structure TextFeatures where
  /-- length of `text.toLowerCase().split(/\s+/)` (always ≥ 1 in JS). -/
  totalWords : Nat
  /-- number of those tokens not contained in `STOP_WORDS`. -/
  contentWords : Nat
  /-- `HOMEWORK_PATTERNS.keywords.test(text)` -/
  hwKeywords : Bool
  /-- `HOMEWORK_PATTERNS.pages.test(text)` -/
  hwPages : Bool
  /-- `HOMEWORK_PATTERNS.exercise.test(text)` -/
  hwExercise : Bool
  /-- `HOMEWORK_PATTERNS.chapter.test(text)` -/
  hwChapter : Bool
  /-- action-verb regex in `calculateHomeworkScore` -/
  actionWords : Bool
  /-- due/deadline regex in `calculateHomeworkScore` -/
  dueDateIndicators : Bool
  /-- `SCHEDULE_PATTERNS.keywords.test(text)` -/
  schedKeywords : Bool
  /-- `SCHEDULE_PATTERNS.timeChange.test(text)` -/
  schedTimeChange : Bool
  /-- `SCHEDULE_PATTERNS.cancellation.test(text)` -/
  schedCancellation : Bool
  /-- `SCHEDULE_PATTERNS.locationChange.test(text)` -/
  schedLocationChange : Bool
  /-- time-of-day regex in `calculateScheduleChangeScore` -/
  timeReference : Bool
  /-- weekday regex in `calculateScheduleChangeScore` -/
  dayReference : Bool
  /-- `ANNOUNCEMENT_PATTERNS.event.test(text)` -/
  annEvent : Bool
  /-- `ANNOUNCEMENT_PATTERNS.permissionSlip.test(text)` -/
  annPermissionSlip : Bool
  /-- `ANNOUNCEMENT_PATTERNS.urgent.test(text)` -/
  annUrgent : Bool
  /-- `ANNOUNCEMENT_PATTERNS.reminder.test(text)` -/
  annReminder : Bool
  /-- info-indicator regex in `calculateAnnouncementScore` -/
  infoIndicators : Bool
  /-- `DATE_PATTERNS.numeric.test(text)` -/
  dateNumeric : Bool
  /-- `DATE_PATTERNS.relative.test(text)` -/
  dateRelative : Bool
  /-- `DATE_PATTERNS.textual.test(text)` (unused by `calculateImportance`) -/
  dateTextual : Bool
  /-- `DATE_PATTERNS.weekday.test(text)` (unused by `calculateImportance`) -/
  dateWeekday : Bool
  /-- `DATE_PATTERNS.time.test(text)` (unused by `calculateImportance`) -/
  dateTime : Bool
  /-- `/[!]/.test(text)` -/
  hasExclamation : Bool
  /-- the urgency regex of `calculateImportance` -/
  urgencyWord : Bool
  deriving DecidableEq, Repr

/-- JavaScript `Math.min` on two (non-`NaN`) numbers, written as an
executable conditional so that concrete scores evaluate by `decide`. -/
def jsMin (a b : ℚ) : ℚ := if a ≤ b then a else b

/-- `ContentExtractor.calculateImportance` (ContentExtractor.ts lines
297-314): ratio of non-stop-word tokens, plus +0.3 for homework keywords,
+0.2 when the numeric **or relative** date pattern matches, +0.1 for an
exclamation mark, +0.4 for an urgency keyword, capped by `Math.min(·, 1.0)`;
`0` when there are no content words. -/
def calculateImportance (f : TextFeatures) : ℚ :=
  if f.contentWords = 0 then 0
  else
    jsMin ((f.contentWords : ℚ) / (f.totalWords : ℚ)
      + (if f.hwKeywords then 0.3 else 0)
      + (if f.dateNumeric || f.dateRelative then 0.2 else 0)
      + (if f.hasExclamation then 0.1 else 0)
      + (if f.urgencyWord then 0.4 else 0)) 1

/-- `ContentClassifier.calculateHomeworkScore` (ContentClassifier.ts lines
103-139). -/
def calculateHomeworkScore (f : TextFeatures) : ℚ :=
  jsMin ((if f.hwKeywords then 0.5 else 0)
    + (if f.hwPages then 0.3 else 0)
    + (if f.hwExercise then 0.3 else 0)
    + (if f.hwChapter then 0.2 else 0)
    + (if f.actionWords then 0.2 else 0)
    + (if f.dueDateIndicators then 0.2 else 0)) 1

/-- `ContentClassifier.calculateScheduleChangeScore` (ContentClassifier.ts
lines 144-179). -/
def calculateScheduleChangeScore (f : TextFeatures) : ℚ :=
  jsMin ((if f.schedKeywords then 0.5 else 0)
    + (if f.schedTimeChange then 0.4 else 0)
    + (if f.schedCancellation then 0.5 else 0)
    + (if f.schedLocationChange then 0.3 else 0)
    + (if f.timeReference then 0.2 else 0)
    + (if f.dayReference then 0.2 else 0)) 1

/-- `ContentClassifier.calculateAnnouncementScore` (ContentClassifier.ts
lines 185-215); `baseImportance` is the already computed importance score. -/
def calculateAnnouncementScore (f : TextFeatures) (baseImportance : ℚ) : ℚ :=
  jsMin (baseImportance
    + (if f.annEvent then 0.3 else 0)
    + (if f.annPermissionSlip then 0.4 else 0)
    + (if f.annUrgent then 0.3 else 0)
    + (if f.annReminder then 0.2 else 0)
    + (if f.infoIndicators then 0.2 else 0)) 1

/-- The three classification categories of `ContentItem.type`. -/
inductive ClassKind where
  | homework
  | schedule_change
  | announcement
  deriving DecidableEq, Repr

/-- Message metadata handed to `classifyMessage`; it is copied into the
produced item and never influences the classification decision. -/
structure Metadata where
  chat_id : String
  sender_id : String
  timestamp : Int
  deriving DecidableEq, Repr

/-- `ContentClassifier.classifyMessage` (ContentClassifier.ts lines 31-98),
restricted to the classification decision: the returned pair is the item's
`type` and the `confidence`.  The `create*Item` helpers only populate the
metadata/entity fields of the item and never fail, so the `Option` value
and the pair fully capture the decision logic.  `f` describes the processed
text of the message. -/
def classifyMessage (f : TextFeatures) (_metadata : Metadata) :
    Option (ClassKind × ℚ) :=
  let importance := calculateImportance f
  if importance < 0.1 then none
  else
    let homeworkScore := calculateHomeworkScore f
    if homeworkScore > 0.6 then some (.homework, homeworkScore)
    else
      let scheduleScore := calculateScheduleChangeScore f
      if scheduleScore > 0.6 then some (.schedule_change, scheduleScore)
      else
        let announcementScore := calculateAnnouncementScore f importance
        if announcementScore > 0.4 then some (.announcement, announcementScore)
        else none

/-- Claim C3's reading of the importance formula: +0.2 when **any** of the
five `DATE_PATTERNS` (relative, numeric, textual, weekday, time) matches.
This is a rendering of the spec sentence, to be compared against
`calculateImportance`, which only consults the numeric and relative
patterns. -/
def importanceClaimC3 (f : TextFeatures) : ℚ :=
  if f.contentWords = 0 then 0
  else
    jsMin ((f.contentWords : ℚ) / (f.totalWords : ℚ)
      + (if f.hwKeywords then 0.3 else 0)
      + (if f.dateNumeric || f.dateRelative || f.dateTextual ||
            f.dateWeekday || f.dateTime then 0.2 else 0)
      + (if f.hasExclamation then 0.1 else 0)
      + (if f.urgencyWord then 0.4 else 0)) 1

/-- The amended C3 formula: the date boost applies exactly when the numeric
or the relative date pattern matches (the textual, weekday and time
patterns do not contribute), stated with the clamp on the other side so
that the equality with `calculateImportance` is not purely syntactic. -/
def importanceAmendedC3 (f : TextFeatures) : ℚ :=
  if f.contentWords = 0 then 0
  else
    jsMin 1 ((f.contentWords : ℚ) / (f.totalWords : ℚ)
      + ((if f.hwKeywords then 0.3 else 0)
        + ((if f.dateNumeric || f.dateRelative then 0.2 else 0)
          + ((if f.hasExclamation then 0.1 else 0)
            + (if f.urgencyWord then 0.4 else 0)))))

/-- A fixed metadata value used for concrete classifier evaluations. -/
def mdSample : Metadata := ⟨"chat_001", "teacher_001", 1704103200000⟩

/-- Features of the empty message text `""` (and of any whitespace-only
text, which `normalizeText` trims to `""`): `"".toLowerCase().split(/\s+/)`
is `[""]`, the empty token is not in `STOP_WORDS`, and no pattern matches
the empty string. -/
def emptyTextFeatures : TextFeatures :=
  { totalWords := 1, contentWords := 1,
    hwKeywords := false, hwPages := false, hwExercise := false,
    hwChapter := false, actionWords := false, dueDateIndicators := false,
    schedKeywords := false, schedTimeChange := false,
    schedCancellation := false, schedLocationChange := false,
    timeReference := false, dayReference := false,
    annEvent := false, annPermissionSlip := false, annUrgent := false,
    annReminder := false, infoIndicators := false,
    dateNumeric := false, dateRelative := false, dateTextual := false,
    dateWeekday := false, dateTime := false,
    hasExclamation := false, urgencyWord := false }

/-- Features of the message
`"finish page 5 by the the … the"` (29 repetitions of `the`): 33 tokens, of
which only `finish`, `page`, `5` are non-stop-words; `HOMEWORK_PATTERNS.pages`
matches `page 5`, the action-verb regex matches `finish`, the due-date regex
matches `by`; `HOMEWORK_PATTERNS.keywords` does *not* match (neither `finish`
nor singular `page` is in its alternation), and no date/urgency/exclamation
pattern matches. -/
def lowRatioHomeworkFeatures : TextFeatures :=
  { emptyTextFeatures with
    totalWords := 33, contentWords := 3,
    hwPages := true, actionWords := true, dueDateIndicators := true }

/-- Features of the message `"we will be at December 25"`: 6 tokens, of
which `december` and `25` are non-stop-words; `DATE_PATTERNS.textual`
matches `December 25` while no other pattern matches. -/
def textualDateFeatures : TextFeatures :=
  { emptyTextFeatures with
    totalWords := 6, contentWords := 2, dateTextual := true }

/-- Features of a message such as
`"homework pages 3 exercise 4 cancelled Monday no class"`: every token is a
content word; the homework keyword/pages/exercise patterns match, and the
schedule keyword and cancellation patterns match, so both the homework and
the schedule-change score reach 1. -/
def doubleThresholdFeatures : TextFeatures :=
  { emptyTextFeatures with
    totalWords := 9, contentWords := 9,
    hwKeywords := true, hwPages := true, hwExercise := true,
    schedKeywords := true, schedCancellation := true,
    dayReference := true, dateWeekday := true }

/-- Features of a stop-word-only message such as `"the"`: one token, zero
content words, no pattern matches. -/
def zeroContentFeatures : TextFeatures :=
  { emptyTextFeatures with totalWords := 1, contentWords := 0 }

/-! ## Relative date resolution

`ContentExtractor.parseRelativeDate` (ContentExtractor.ts lines 147-170)
receives one lowercased match of `DATE_PATTERNS.relative` together with the
current `Date`.  Only the day component is manipulated (`setDate`), so the
base time is modelled as an epoch **day** number (day 0 = 1970-01-01, a
Thursday). -/

/-- Substring observations (`text.includes(...)`) made by
`parseRelativeDate` on the lowercased matched keyword, in source order.
Each flag is true when the match contains the English or Hebrew keyword of
the corresponding branch. -/
structure RelFlags where
  /-- contains `today` or `היום` -/
  todayKw : Bool
  /-- contains `tomorrow` or `מחר` -/
  tomorrowKw : Bool
  /-- contains `yesterday` or `אתמול` -/
  yesterdayKw : Bool
  /-- contains `next week` or `השבוע הבא` -/
  nextWeekKw : Bool
  /-- contains `this week` or `השבוע` -/
  thisWeekKw : Bool
  deriving DecidableEq, Repr

/-- JavaScript `Date.prototype.getDay` on an epoch-day number:
0 = Sunday … 6 = Saturday; day 0 (1970-01-01) was a Thursday (4). -/
def jsWeekday (day : Int) : Int := (day + 4) % 7

/-- `ContentExtractor.parseRelativeDate`: the if/else-if chain over the
keyword observations; the `this week` branch adds
`(5 - dayOfWeek + 7) % 7` days (the JS truncating `%` agrees with the
Euclidean `%` here since its operands are non-negative). -/
def parseRelativeDate (t : RelFlags) (base : Int) : Option Int :=
  if t.todayKw then some base
  else if t.tomorrowKw then some (base + 1)
  else if t.yesterdayKw then some (base - 1)
  else if t.nextWeekKw then some (base + 7)
  else if t.thisWeekKw then some (base + (5 - jsWeekday base + 7) % 7)
  else none

/-- The observation vector of a matched `this week` / `השבוע` keyword:
none of the earlier branch keywords occurs inside such a match. -/
def thisWeekFlags : RelFlags :=
  ⟨false, false, false, false, true⟩

/-! ## Numeric date parsing (day, month and optional year numbers
separated by `.`, `/` or `-`)

`ContentExtractor.parseNumericDate` (ContentExtractor.ts lines 175-199)
builds `new Date(year, month, day)` values and inspects `getMonth()`.
The ECMAScript constructor semantics modelled here:
* a year argument `0 ≤ y ≤ 99` stands for `1900 + y`;
* `MakeDay(y, m, d)`: the month is first normalised into the year
  (`y + floor(m/12)`, `m mod 12`), then `d - 1` days are added to the first
  of that month, rolling over month and year boundaries; `d = 0` borrows
  from the previous month, etc.
The rolling is implemented with explicit fuel (`rollFAux`, `rollBAux`) so
that the functions are structurally recursive; the fuel is chosen large
enough for every input (each forward step consumes at least 28 days, each
borrow adds at least 28 days). -/

/-- A civil calendar date; `month` is 0-indexed as in JS `getMonth()`. -/
structure CivilDate where
  year : Int
  month : Int
  day : Int
  deriving DecidableEq, Repr

/-- Gregorian leap-year predicate. -/
def isLeap (y : Int) : Bool :=
  (y % 4 == 0 && y % 100 != 0) || y % 400 == 0

/-- Number of days of month `m` (0-indexed) in year `y`: 28/29 for
February (index 1), 30 for April, June, September, November (indices 3,
5, 8, 10), 31 otherwise.  Only values `0 ≤ m ≤ 11` are ever consulted. -/
def monthLen (y m : Int) : Int :=
  if m = 1 then (if isLeap y then 29 else 28)
  else if m = 3 ∨ m = 5 ∨ m = 8 ∨ m = 10 then 30
  else 31

/-- Successor month with year carry (for `m ∈ [0,11]`). -/
def nextMonth (y m : Int) : Int × Int :=
  if m = 11 then (y + 1, 0) else (y, m + 1)

/-- Predecessor month with year borrow (for `m ∈ [0,11]`). -/
def prevMonth (y m : Int) : Int × Int :=
  if m = 0 then (y - 1, 11) else (y, m - 1)

/-- Roll a day count `1 ≤ d` forward from the first of month `(y, m)`;
the fuel only bounds the recursion and is never exhausted on the inputs
used (each step strictly decreases `d` by at least 28). -/
def rollFAux : Nat → Int → Int → Int → CivilDate
  | 0, y, m, d => ⟨y, m, d⟩
  | fuel + 1, y, m, d =>
    if d ≤ monthLen y m then ⟨y, m, d⟩
    else rollFAux fuel (nextMonth y m).1 (nextMonth y m).2 (d - monthLen y m)

/-- Normalise a possibly non-positive day count by borrowing from previous
months, then roll forward; again the fuel is never exhausted on the inputs
used (each borrow increases `d` by at least 28). -/
def rollBAux : Nat → Int → Int → Int → CivilDate
  | 0, y, m, d => ⟨y, m, d⟩
  | fuel + 1, y, m, d =>
    if 1 ≤ d then rollFAux d.toNat y m d
    else
      rollBAux fuel (prevMonth y m).1 (prevMonth y m).2
        (d + monthLen (prevMonth y m).1 (prevMonth y m).2)

/-- ECMAScript `MakeDay`-style civil-date normalisation of
`new Date(y, m, d)` (month normalised first, then the day count). -/
def jsMakeDate (y m d : Int) : CivilDate :=
  rollBAux ((1 - d).toNat + 1) ((y * 12 + m) / 12) ((y * 12 + m) % 12) d

/-- The `Date` constructor's year rule: arguments `0 ≤ y ≤ 99` denote
`1900 + y`. -/
def jsYearAdjust (y : Int) : Int :=
  if 0 ≤ y ∧ y ≤ 99 then 1900 + y else y

/-- The year actually used by `parseNumericDate`: the captured year if
present, else `currentYear` (the source's
`year ? parseInt(year) : currentYear`), run through the constructor's
1900-adjustment. -/
def yearAdjOf (year : Option Nat) (currentYear : Int) : Int :=
  jsYearAdjust (match year with
    | some yy => (yy : Int)
    | none => currentYear)

/-- `ContentExtractor.parseNumericDate(day, month, year?)`
(ContentExtractor.ts lines 175-199): `day`/`month` are the `parseInt`
values of the first/second captured number (each 1-2 digits), `year` the
optional third capture (2-4 digits), `currentYear` the value of
`new Date().getFullYear()`.  Day-first construction, falling back to
month-first when `getMonth()` disagrees with the requested month index.
The final `isNaN` guard in the source can only fire for dates hundreds of
thousands of years away, which no 4-digit year can produce, so the model
always returns a date. -/
def parseNumericDate (day month : Nat) (year : Option Nat)
    (currentYear : Int) : Option CivilDate :=
  let yAdj := yearAdjOf year currentYear
  let monthNum : Int := (month : Int) - 1
  let dayFirst := jsMakeDate yAdj monthNum (day : Int)
  if dayFirst.month ≠ monthNum then
    some (jsMakeDate yAdj ((day : Int) - 1) (month : Int))
  else some dayFirst

/-! ## Message filter (`MessageFilter.ts`)

Dynamic (possibly missing / wrongly typed) fields are modelled with
`Option`: `none` stands for a value that is absent or not of the expected
runtime type.  A timestamp string is modelled by `TSVal`: the string itself
together with the outcome of `new Date(str)` (`epoch` in milliseconds,
`none` when the parse yields `NaN`) and whether `toISOString()` round-trips
(`canonical`).  Validation consults the parse outcome, period comparison
the epoch, and the dedup key the raw string — exactly the observations the
source makes.  The dedup-assist `cache` of `getMessageKey` only records
keys and never influences any output, so it is not modelled. -/

/-- A timestamp string together with its JavaScript `Date` parse
behaviour. -/
structure TSVal where
  /-- the raw string -/
  str : String
  /-- `new Date(str).getTime()`; `none` for `NaN` -/
  epoch : Option Int
  /-- `new Date(str).toISOString() === str` -/
  canonical : Bool
  deriving DecidableEq, Repr

/-- A raw input message; each field is `none` when missing or not a
string. -/
structure RawMsg where
  chat_id : Option String
  sender_id : Option String
  timestamp : Option TSVal
  text : Option String
  deriving DecidableEq, Repr

/-- A raw time period; `stop` models the source's `end` field. -/
structure RawPeriod where
  start : Option TSVal
  stop : Option TSVal
  deriving DecidableEq, Repr

/-- The dynamic `FilterInput`; `none` in `messages`/`subscribed_chats`
models a non-array value, `none` in `period` a missing or non-object
value. -/
structure FilterInput where
  messages : Option (List RawMsg)
  subscribed_chats : Option (List String)
  period : Option RawPeriod
  deriving DecidableEq, Repr

/-- The `stats` record of `FilterResult`. -/
structure FilterStats where
  totalProcessed : Nat
  filteredBySubscription : Nat
  filteredByTimePeriod : Nat
  duplicatesRemoved : Nat
  finalCount : Nat
  deriving DecidableEq, Repr

/-- `FilterResult`: surviving messages plus the stage counters. -/
structure FilterResult where
  messages : List RawMsg
  stats : FilterStats
  deriving DecidableEq, Repr

/-- Truthy non-empty string check used for `chat_id` / `sender_id`
(`!field || typeof field !== 'string'`). -/
def validStrField : Option String → Bool
  | some s => !(s == "")
  | none => false

/-- `MessageFilter.isValidTimestamp` (MessageFilter.ts lines 149-156):
a present string that is non-empty (truthiness), parses to a non-`NaN`
date, and whose `toISOString()` reproduces the input. -/
def isValidTimestamp : Option TSVal → Bool
  | none => false
  | some t => !(t.str == "") && t.epoch.isSome && t.canonical

/-- The epoch value `new Date(x).getTime()` of an optional timestamp
(`none` when the field is missing or the parse is `NaN`). -/
def epochOf : Option TSVal → Option Int
  | none => none
  | some t => t.epoch

/-- The per-message portion of `MessageFilter.validateInput`
(MessageFilter.ts lines 121-141), checks in source order.  (The guard
`typeof message !== 'object'` cannot fire in this model, where list
elements are always records.) -/
def validateMessage (m : RawMsg) : Except String Unit :=
  if !validStrField m.chat_id then
    .error "Each message must have a valid chat_id string"
  else if !validStrField m.sender_id then
    .error "Each message must have a valid sender_id string"
  else if !isValidTimestamp m.timestamp then
    .error "Each message must have a valid ISO-8601 timestamp"
  else if !m.text.isSome then
    .error "Each message must have a text property of type string"
  else .ok ()

/-- The `for (const message of input.messages)` validation loop: first
failing message aborts. -/
def validateMessages : List RawMsg → Except String Unit
  | [] => .ok ()
  | m :: rest =>
    match validateMessage m with
    | .error e => .error e
    | .ok () => validateMessages rest

/-- `startDate >= endDate` on two `Date` values; a comparison involving an
invalid date (`NaN`) is false in JS. -/
def jsDateGe (a b : Option Int) : Bool :=
  match a, b with
  | some x, some y => decide (y ≤ x)
  | _, _ => false

/-- `MessageFilter.validateInput` (MessageFilter.ts lines 88-142), checks
in source order.  (The initial `!input` null guard cannot fire in this
model, where the input is always a record.) -/
def validateInput (input : FilterInput) : Except String Unit :=
  match input.messages with
  | none => .error "Messages must be an array"
  | some msgs =>
    match input.subscribed_chats with
    | none => .error "Subscribed chats must be an array"
    | some _ =>
      match input.period with
      | none => .error "Period must be an object with start and end properties"
      | some p =>
        if !isValidTimestamp p.start then
          .error "Period start must be a valid ISO-8601 timestamp"
        else if !isValidTimestamp p.stop then
          .error "Period end must be a valid ISO-8601 timestamp"
        else if jsDateGe (epochOf p.start) (epochOf p.stop) then
          .error "Period start must be before period end"
        else validateMessages msgs

/-- `subscribedChatsSet.has(message.chat_id)`. -/
def inSubscribed (subs : List String) (m : RawMsg) : Bool :=
  match m.chat_id with
  | some c => subs.contains c
  | none => false

/-- `MessageFilter.isMessageInPeriod` (MessageFilter.ts lines 164-170):
`messageDate >= startDate && messageDate < endDate`; any comparison with
an invalid date is false. -/
def isMessageInPeriod (m : RawMsg) (p : RawPeriod) : Bool :=
  match epochOf m.timestamp, epochOf p.start, epochOf p.stop with
  | some t, some s, some e => decide (s ≤ t) && decide (t < e)
  | _, _, _ => false

/-- JS string interpolation of a possibly-undefined string field
(`template literals render undefined as "undefined"`). -/
def strOfOpt : Option String → String
  | some s => s
  | none => "undefined"

/-- JS string interpolation of the timestamp field: the raw string. -/
def tsStrOfOpt : Option TSVal → String
  | some t => t.str
  | none => "undefined"

/-- `MessageFilter.getMessageKey` (MessageFilter.ts lines 198-207): the
colon-joined rendering of the four identifying fields.  (The cache write
is output-irrelevant and not modelled.) -/
def getMessageKey (m : RawMsg) : String :=
  strOfOpt m.chat_id ++ ":" ++ strOfOpt m.sender_id ++ ":" ++
    tsStrOfOpt m.timestamp ++ ":" ++ strOfOpt m.text

/-- The loop of `MessageFilter.removeDuplicates` with its `seen` set
(modelled as the list of keys inserted so far). -/
def removeDupGo (seen : List String) : List RawMsg → List RawMsg
  | [] => []
  | m :: rest =>
    let key := getMessageKey m
    if seen.contains key then removeDupGo seen rest
    else m :: removeDupGo (key :: seen) rest

/-- `MessageFilter.removeDuplicates` (MessageFilter.ts lines 177-191). -/
def removeDuplicates (msgs : List RawMsg) : List RawMsg :=
  removeDupGo [] msgs

/-- The filtering stages of `MessageFilter.filter` (MessageFilter.ts lines
39-80) after successful validation.  The counters are exactly the loop
increments of the source: `filteredBySubscription` counts messages failing
the subscription test, `filteredByTimePeriod` counts subscribed messages
outside the period, `duplicatesRemoved` is the length difference of the
dedup stage. -/
def filterCore (msgs : List RawMsg) (subs : List String)
    (p : RawPeriod) : FilterResult :=
  let subscribedMessages := msgs.filter (fun m => inSubscribed subs m)
  let filteredBySubscription := msgs.countP (fun m => !inSubscribed subs m)
  let timeFilteredMessages :=
    subscribedMessages.filter (fun m => isMessageInPeriod m p)
  let filteredByTimePeriod :=
    subscribedMessages.countP (fun m => !isMessageInPeriod m p)
  let uniqueMessages := removeDuplicates timeFilteredMessages
  { messages := uniqueMessages,
    stats :=
      { totalProcessed := msgs.length,
        filteredBySubscription := filteredBySubscription,
        filteredByTimePeriod := filteredByTimePeriod,
        duplicatesRemoved :=
          timeFilteredMessages.length - uniqueMessages.length,
        finalCount := uniqueMessages.length } }

/-- `MessageFilter.filter` (MessageFilter.ts lines 35-81): validation
first (any failure aborts the whole call with the validation error and no
other output), then the three stages.  The catch-all arm is unreachable:
successful validation guarantees all three fields are present. -/
def filter (input : FilterInput) : Except String FilterResult :=
  match validateInput input with
  | .error e => .error e
  | .ok () =>
    match input.messages, input.subscribed_chats, input.period with
    | some msgs, some subs, some p => .ok (filterCore msgs subs p)
    | _, _, _ => .error "unreachable"

/-- The conjunction of validity constraints listed by claim C4 (one Bool
per violated-constraint class), written from the claim's own words: arrays
present, both period bounds pass the strict ISO-8601 parse-and-round-trip
check, `start < end`, and every message has a non-empty `chat_id`,
non-empty `sender_id`, valid timestamp and string `text`. -/
def validMsgB (m : RawMsg) : Bool :=
  validStrField m.chat_id && validStrField m.sender_id &&
    isValidTimestamp m.timestamp && m.text.isSome

/-- See `validMsgB`; the whole-input validity predicate of claim C4. -/
def claimedValidB (input : FilterInput) : Bool :=
  match input.messages, input.subscribed_chats, input.period with
  | some msgs, some _, some p =>
    isValidTimestamp p.start && isValidTimestamp p.stop &&
      (match epochOf p.start, epochOf p.stop with
        | some s, some e => decide (s < e)
        | _, _ => false) &&
      msgs.all validMsgB
  | _, _, _ => false

/-- The fixed validation error strings of `MessageFilter`, each naming the
violated constraint. -/
def validationMessages : List String :=
  ["Messages must be an array",
   "Subscribed chats must be an array",
   "Period must be an object with start and end properties",
   "Period start must be a valid ISO-8601 timestamp",
   "Period end must be a valid ISO-8601 timestamp",
   "Period start must be before period end",
   "Each message must have a valid chat_id string",
   "Each message must have a valid sender_id string",
   "Each message must have a valid ISO-8601 timestamp",
   "Each message must have a text property of type string"]

/-! ## Concrete fixtures

Epoch values: `2024-01-01T00:00:00.000Z` is 19723 days after the epoch,
i.e. 1704067200000 ms. -/

/-- Timestamp `2024-01-01T10:00:00.000Z`. -/
def tsMsg : TSVal := ⟨"2024-01-01T10:00:00.000Z", some 1704103200000, true⟩

/-- Timestamp `2024-01-01T00:00:00.000Z`. -/
def tsStart : TSVal := ⟨"2024-01-01T00:00:00.000Z", some 1704067200000, true⟩

/-- Timestamp `2024-01-02T00:00:00.000Z`. -/
def tsEnd : TSVal := ⟨"2024-01-02T00:00:00.000Z", some 1704153600000, true⟩

/-- The period `[2024-01-01, 2024-01-02)`. -/
def period0 : RawPeriod := ⟨some tsStart, some tsEnd⟩

/-- Key-collision message 1: chat `a:b`, sender `c`. -/
def mColl1 : RawMsg := ⟨some "a:b", some "c", some tsMsg, some "x"⟩

/-- Key-collision message 2: chat `a`, sender `b:c` — a different tuple
whose colon-joined dedup key coincides with `mColl1`'s. -/
def mColl2 : RawMsg := ⟨some "a", some "b:c", some tsMsg, some "x"⟩

/-- Filter input containing the two colliding messages, both subscribed
and inside the period. -/
def inputColl : FilterInput :=
  ⟨some [mColl1, mColl2], some ["a:b", "a"], some period0⟩

/-- An ordinary valid in-scope message. -/
def mRep : RawMsg :=
  ⟨some "chat_001", some "teacher_001", some tsMsg, some "Math homework"⟩

/-- Filter input consisting of `n` copies of `mRep` (the dedup scenario of
claim C6). -/
def inputRep (n : Nat) : FilterInput :=
  ⟨some (List.replicate n mRep), some ["chat_001"], some period0⟩

/-- An input whose period violates `start < end`. -/
def inputBadPeriod : FilterInput :=
  ⟨some [], some [], some ⟨some tsEnd, some tsStart⟩⟩

/-! ## Helper lemmas -/



/-- `jsMin a b` is bounded by its second argument. -/
theorem jsMin_le_right (a b : ℚ) : jsMin a b ≤ b := by
  unfold jsMin
  split_ifs with h
  · exact h
  · exact le_rfl

/-- A lower bound for both arguments is a lower bound for `jsMin`. -/
theorem le_jsMin {c a b : ℚ} (ha : c ≤ a) (hb : c ≤ b) : c ≤ jsMin a b := by
  unfold jsMin
  split_ifs <;> assumption

/-- `jsMin` is commutative. -/
theorem jsMin_comm (a b : ℚ) : jsMin a b = jsMin b a := by
  unfold jsMin
  split_ifs <;> linarith

/-- `calculateImportance` never exceeds 1. -/
theorem calculateImportance_le_one (f : TextFeatures) :
    calculateImportance f ≤ 1 := by
  unfold calculateImportance
  split
  · norm_num
  · exact jsMin_le_right _ _

/-- The announcement score dominates its base importance whenever the base
is at most 1 (the pattern boosts are non-negative). -/
theorem base_le_announcementScore (f : TextFeatures) (b : ℚ) (hb : b ≤ 1) :
    b ≤ calculateAnnouncementScore f b := by
  unfold calculateAnnouncementScore
  refine le_jsMin ?_ hb
  have : (0:ℚ) ≤ (if f.annEvent then 0.3 else 0)
      + (if f.annPermissionSlip then 0.4 else 0)
      + (if f.annUrgent then 0.3 else 0)
      + (if f.annReminder then 0.2 else 0)
      + (if f.infoIndicators then 0.2 else 0) := by
    split_ifs <;> norm_num
  linarith

/-! ## Claim C1 -/

/-- C1, counterexample: the claim quantifies over *every* message text,
but the low-signal gate precedes the homework check.  For the message
`"finish page 5 by the the … the"` (29 repetitions of `the`) the homework
score is 0.7 > 0.6, yet the importance ratio is 3/33 < 0.1, so
`classifyMessage` returns `null` rather than a homework item. -/
theorem classify_homeworkScore_gate_counterexample :
    calculateHomeworkScore lowRatioHomeworkFeatures > 0.6
    ∧ classifyMessage lowRatioHomeworkFeatures mdSample = none := by
  constructor
  · norm_num [calculateHomeworkScore, jsMin, lowRatioHomeworkFeatures,
      emptyTextFeatures]
  · norm_num [classifyMessage, calculateImportance, calculateHomeworkScore,
      calculateScheduleChangeScore, calculateAnnouncementScore, jsMin,
      lowRatioHomeworkFeatures, emptyTextFeatures]

/-- C1, amended: *provided the message passes the low-signal gate*
(importance ≥ 0.1), a homework score above 0.6 always yields a homework
classification whose confidence is exactly the homework score — for any
metadata and regardless of the schedule-change score (the classifier is an
ordered chain of threshold checks: homework, then schedule change, then
announcement). -/
theorem classify_homework_priority_amended (f : TextFeatures) (md : Metadata)
    (hgate : ¬ calculateImportance f < 0.1)
    (hhw : calculateHomeworkScore f > 0.6) :
    classifyMessage f md = some (.homework, calculateHomeworkScore f) := by
  unfold classifyMessage
  rw [if_neg hgate, if_pos hhw]

/-- Witness for `classify_homework_priority_amended` at a message whose
homework *and* schedule-change scores both exceed 0.6 (e.g. `"homework
pages 3 exercise 4 cancelled Monday no class"`): homework wins. -/
theorem classify_homework_priority_amended_witness :
    (¬ calculateImportance doubleThresholdFeatures < 0.1)
    ∧ calculateHomeworkScore doubleThresholdFeatures > 0.6
    ∧ calculateScheduleChangeScore doubleThresholdFeatures > 0.6
    ∧ classifyMessage doubleThresholdFeatures mdSample
        = some (.homework, calculateHomeworkScore doubleThresholdFeatures) :=
  ⟨by norm_num [calculateImportance, jsMin, doubleThresholdFeatures,
      emptyTextFeatures],
    by norm_num [calculateHomeworkScore, jsMin, doubleThresholdFeatures,
      emptyTextFeatures],
    by norm_num [calculateScheduleChangeScore, jsMin, doubleThresholdFeatures,
      emptyTextFeatures],
    classify_homework_priority_amended doubleThresholdFeatures mdSample
      (by norm_num [calculateImportance, jsMin, doubleThresholdFeatures,
        emptyTextFeatures])
      (by norm_num [calculateHomeworkScore, jsMin, doubleThresholdFeatures,
        emptyTextFeatures])⟩

/-! ## Claim C2 -/

/-- C2, code bug: the claim (and the repository's own edge-case test
`should handle empty messages`) says the classifier returns `null` for
empty or whitespace-only text and for texts with fewer than 3 non-stop-word
tokens.  In the code, `"".toLowerCase().split(/\s+/)` is `[""]` and the
empty token is not a stop word, so the empty text has importance
1/1 = 1: it passes the gate and is classified as an **announcement** with
confidence 1.  The same single-token input also falsifies the
fewer-than-3-tokens clause (no such check exists anywhere in the code). -/
theorem classify_empty_text_announcement :
    emptyTextFeatures.contentWords < 3
    ∧ calculateImportance emptyTextFeatures = 1
    ∧ classifyMessage emptyTextFeatures mdSample
        = some (.announcement, 1) := by
  refine ⟨by norm_num [emptyTextFeatures],
    by norm_num [calculateImportance, jsMin, emptyTextFeatures], ?_⟩
  norm_num [classifyMessage, calculateImportance, calculateHomeworkScore,
      calculateScheduleChangeScore, calculateAnnouncementScore, jsMin, emptyTextFeatures]

/-! ## Claim C3 -/

/-- C3, counterexample: for `"we will be at December 25"` (6 tokens, 2
content words, only `DATE_PATTERNS.textual` matches) the code gives
importance 2/6 = 1/3, while the claim's "+0.2 if **any** date pattern
matches" formula gives 1/3 + 1/5 = 8/15. -/
theorem importance_textual_date_counterexample :
    calculateImportance textualDateFeatures = 1/3
    ∧ importanceClaimC3 textualDateFeatures = 8/15
    ∧ calculateImportance textualDateFeatures
        ≠ importanceClaimC3 textualDateFeatures := by
  have h1 : calculateImportance textualDateFeatures = 1/3 := by
    norm_num [calculateImportance, jsMin, textualDateFeatures,
      emptyTextFeatures]
  have h2 : importanceClaimC3 textualDateFeatures = 8/15 := by
    norm_num [importanceClaimC3, jsMin, textualDateFeatures,
      emptyTextFeatures]
  refine ⟨h1, h2, ?_⟩
  rw [h1, h2]
  norm_num

/-- C3, amended: the importance score is the content-word ratio plus +0.3
for a homework-keyword match, +0.2 when the **numeric or relative** date
pattern matches (the textual, weekday and time patterns do not
contribute), +0.1 for `!`, +0.4 for an urgency keyword, clamped to `[0,1]`;
a text with zero non-stop-word tokens scores exactly 0. -/
theorem importance_formula_amended (f : TextFeatures) :
    calculateImportance f = importanceAmendedC3 f
    ∧ 0 ≤ calculateImportance f
    ∧ calculateImportance f ≤ 1
    ∧ (f.contentWords = 0 → calculateImportance f = 0) := by
  refine ⟨?_, ?_, calculateImportance_le_one f, fun h => by
    simp [calculateImportance, h]⟩
  · unfold calculateImportance importanceAmendedC3
    split
    · rfl
    · rw [jsMin_comm]
      congr 1
      ring
  · unfold calculateImportance
    split
    · norm_num
    · refine le_jsMin ?_ (by norm_num)
      have h1 : (0:ℚ) ≤ (f.contentWords : ℚ) / (f.totalWords : ℚ) := by
        positivity
      split_ifs <;> linarith

/-- Witness for `importance_formula_amended` at the zero-content-word
features. -/
theorem importance_formula_amended_witness :
    zeroContentFeatures.contentWords = 0
    ∧ calculateImportance zeroContentFeatures = 0 :=
  ⟨rfl, (importance_formula_amended zeroContentFeatures).2.2.2 rfl⟩

/-! ## Claim C5 -/

/-- C5: the time filter implements the half-open interval: a validated
message is kept iff `period.start ≤ timestamp < period.end`; in
particular a timestamp equal to `start` is kept (whenever the period is
non-degenerate) and one equal to `end` is dropped. -/
theorem isMessageInPeriod_halfOpen (m : RawMsg) (p : RawPeriod) (t s e : Int)
    (hm : epochOf m.timestamp = some t)
    (hs : epochOf p.start = some s)
    (he : epochOf p.stop = some e) :
    (isMessageInPeriod m p = true ↔ (s ≤ t ∧ t < e))
    ∧ (t = s → s < e → isMessageInPeriod m p = true)
    ∧ (t = e → isMessageInPeriod m p = false) := by
  have hiff : isMessageInPeriod m p = true ↔ (s ≤ t ∧ t < e) := by
    unfold isMessageInPeriod
    rw [hm, hs, he]
    simp
  refine ⟨hiff, fun hts hse => hiff.mpr ⟨by omega, by omega⟩, fun hte => ?_⟩
  rcases hb : isMessageInPeriod m p with _ | _
  · rfl
  · exact absurd (hiff.mp hb) (by omega)

/-- Witness for `isMessageInPeriod_halfOpen` at the concrete message
`mRep` and period `period0`. -/
theorem isMessageInPeriod_halfOpen_witness :
    isMessageInPeriod mRep period0 = true ↔
      ((1704067200000 : Int) ≤ 1704103200000
        ∧ (1704103200000 : Int) < 1704153600000) :=
  (isMessageInPeriod_halfOpen mRep period0
    1704103200000 1704067200000 1704153600000 rfl rfl rfl).1

/-! ## Claim C7 -/

/-- C7, counterexample: day 2 (1970-01-03) is a Saturday (`getDay` = 6,
"Friday-or-later in the week"), yet the `this week` branch resolves it to
day 8, six days later — not to `now` as the claim states. -/
theorem thisWeek_saturday_counterexample :
    jsWeekday 2 = 6
    ∧ (5:Int) ≤ jsWeekday 2
    ∧ parseRelativeDate thisWeekFlags 2 = some 8
    ∧ (8 : Int) ≠ 2 := by
  refine ⟨by decide, by decide, by decide, by decide⟩

/-- C7, amended: a `this week` keyword resolves to
`now + ((5 - weekday(now) + 7) mod 7)` days — the unique Friday in the
half-open week `[now, now + 7)`.  This equals `now` itself **exactly when
`now` is a Friday** (weekday 5); on a Saturday it is the Friday six days
ahead, not `now`. -/
theorem parseRelativeDate_thisWeek_amended (now : Int) :
    parseRelativeDate thisWeekFlags now
        = some (now + (5 - jsWeekday now + 7) % 7)
    ∧ jsWeekday (now + (5 - jsWeekday now + 7) % 7) = 5
    ∧ now ≤ now + (5 - jsWeekday now + 7) % 7
    ∧ now + (5 - jsWeekday now + 7) % 7 < now + 7
    ∧ (now + (5 - jsWeekday now + 7) % 7 = now ↔ jsWeekday now = 5) := by
  refine ⟨rfl, ?_, ?_, ?_, ?_⟩ <;> simp only [jsWeekday] <;> omega

/-! ## Claim C9 -/

/-- C9: a message with importance above 0.4 is never classified as `null`:
it passes the gate, and if neither the homework nor the schedule-change
threshold is met, the announcement score — whose base term is the
importance, with only non-negative boosts added before the cap — still
exceeds the 0.4 threshold, producing an announcement item. -/
theorem classify_importance_above_threshold (f : TextFeatures)
    (md : Metadata) (h : calculateImportance f > 0.4) :
    (classifyMessage f md).isSome = true
    ∧ (calculateHomeworkScore f ≤ 0.6 → calculateScheduleChangeScore f ≤ 0.6 →
        classifyMessage f md
          = some (.announcement,
              calculateAnnouncementScore f (calculateImportance f))
        ∧ calculateImportance f
            ≤ calculateAnnouncementScore f (calculateImportance f)) := by
  have hgate : ¬ calculateImportance f < 0.1 := by linarith
  have hbase : calculateImportance f
      ≤ calculateAnnouncementScore f (calculateImportance f) :=
    base_le_announcementScore f _ (calculateImportance_le_one f)
  have hann : calculateAnnouncementScore f (calculateImportance f) > 0.4 := by
    linarith
  constructor
  · unfold classifyMessage
    rw [if_neg hgate]
    by_cases hhw : calculateHomeworkScore f > 0.6
    · rw [if_pos hhw]; rfl
    · rw [if_neg hhw]
      by_cases hsc : calculateScheduleChangeScore f > 0.6
      · rw [if_pos hsc]; rfl
      · rw [if_neg hsc, if_pos hann]; rfl
  · intro hhw hsc
    refine ⟨?_, hbase⟩
    unfold classifyMessage
    rw [if_neg hgate, if_neg (by linarith : ¬ calculateHomeworkScore f > 0.6),
      if_neg (by linarith : ¬ calculateScheduleChangeScore f > 0.6),
      if_pos hann]

/-- Witness for `classify_importance_above_threshold` at the empty-text
features (importance 1 > 0.4, no category pattern matches). -/
theorem classify_importance_above_threshold_witness :
    (calculateImportance emptyTextFeatures > 0.4)
    ∧ (classifyMessage emptyTextFeatures mdSample).isSome = true :=
  ⟨by norm_num [calculateImportance, jsMin, emptyTextFeatures],
    (classify_importance_above_threshold emptyTextFeatures mdSample
      (by norm_num [calculateImportance, jsMin, emptyTextFeatures])).1⟩

/-! ## Filter helper lemmas -/

/-- Splitting a list's length into the part kept by a predicate and the
count of the elements it rejects (the source's stage-counter pattern). -/
theorem length_filter_add_countP_not {α : Type} (p : α → Bool) (l : List α) :
    (l.filter p).length + l.countP (fun a => !p a) = l.length := by
  induction l with
  | nil => simp
  | cons a t ih =>
    by_cases h : p a = true <;>
      simp [List.filter_cons, List.countP_cons, h] <;> omega

/-- Deduplication never lengthens a list. -/
theorem removeDupGo_length_le (seen : List String) (l : List RawMsg) :
    (removeDupGo seen l).length ≤ l.length := by
  induction l generalizing seen with
  | nil => simp [removeDupGo]
  | cons m t ih =>
    simp only [removeDupGo]
    split
    · exact Nat.le_succ_of_le (ih seen)
    · simpa using ih (getMessageKey m :: seen)

/-- Deduplication returns a sublist (first occurrences, order kept). -/
theorem removeDupGo_sublist (seen : List String) (l : List RawMsg) :
    (removeDupGo seen l).Sublist l := by
  induction l generalizing seen with
  | nil => simp [removeDupGo]
  | cons m t ih =>
    simp only [removeDupGo]
    split
    · exact (ih seen).cons m
    · exact (ih (getMessageKey m :: seen)).cons₂ m

/-- The keys of a deduplicated list avoid the `seen` set and are pairwise
distinct. -/
theorem removeDupGo_keys (seen : List String) (l : List RawMsg) :
    ((removeDupGo seen l).map getMessageKey).Nodup
    ∧ ∀ m ∈ removeDupGo seen l, getMessageKey m ∉ seen := by
  induction l generalizing seen with
  | nil => simp [removeDupGo]
  | cons m t ih =>
    by_cases h : getMessageKey m ∈ seen
    · have hunf : removeDupGo seen (m :: t) = removeDupGo seen t := by
        simp [removeDupGo, h]
      rw [hunf]
      exact ih seen
    · have hunf : removeDupGo seen (m :: t)
          = m :: removeDupGo (getMessageKey m :: seen) t := by
        simp [removeDupGo, h]
      rw [hunf]
      obtain ⟨ihn, ihs⟩ := ih (getMessageKey m :: seen)
      constructor
      · rw [List.map_cons, List.nodup_cons]
        refine ⟨?_, ihn⟩
        intro hmem
        obtain ⟨m', hm', hkey⟩ := List.mem_map.mp hmem
        exact ihs m' hm' (by rw [hkey]; exact List.mem_cons_self _ _)
      · intro m' hm'
        rcases List.mem_cons.mp hm' with rfl | hm'
        · exact h
        · exact fun hin => ihs m' hm' (List.mem_cons_of_mem _ hin)

/-- `removeDupGo` only consults `seen` through membership. -/
theorem removeDupGo_congr (seen seen' : List String)
    (h : ∀ k, k ∈ seen ↔ k ∈ seen') (l : List RawMsg) :
    removeDupGo seen l = removeDupGo seen' l := by
  induction l generalizing seen seen' with
  | nil => rfl
  | cons m t ih =>
    by_cases hm : getMessageKey m ∈ seen
    · have hm2 : getMessageKey m ∈ seen' := (h _).mp hm
      have u1 : removeDupGo seen (m :: t) = removeDupGo seen t := by
        simp [removeDupGo, hm]
      have u2 : removeDupGo seen' (m :: t) = removeDupGo seen' t := by
        simp [removeDupGo, hm2]
      rw [u1, u2]
      exact ih seen seen' h
    · have hm2 : getMessageKey m ∉ seen' := fun hx => hm ((h _).mpr hx)
      have u1 : removeDupGo seen (m :: t)
          = m :: removeDupGo (getMessageKey m :: seen) t := by
        simp [removeDupGo, hm]
      have u2 : removeDupGo seen' (m :: t)
          = m :: removeDupGo (getMessageKey m :: seen') t := by
        simp [removeDupGo, hm2]
      rw [u1, u2,
        ih (getMessageKey m :: seen) (getMessageKey m :: seen')
          (fun k => by simp [List.mem_cons, h k])]

/-- Inserting a key into `seen` is the same as pre-filtering all messages
with that key out of the input. -/
theorem removeDupGo_seen_filter (k : String) (seen : List String)
    (l : List RawMsg) :
    removeDupGo (k :: seen) l
      = removeDupGo seen (l.filter (fun x => !(getMessageKey x == k))) := by
  induction l generalizing seen with
  | nil => rfl
  | cons m t ih =>
    by_cases hk : getMessageKey m = k
    · have u1 : removeDupGo (k :: seen) (m :: t)
          = removeDupGo (k :: seen) t := by
        simp [removeDupGo, List.mem_cons, hk]
      have u2 : (m :: t).filter (fun x => !(getMessageKey x == k))
          = t.filter (fun x => !(getMessageKey x == k)) := by
        simp [List.filter_cons, hk]
      rw [u1, u2]
      exact ih seen
    · have u2 : (m :: t).filter (fun x => !(getMessageKey x == k))
          = m :: t.filter (fun x => !(getMessageKey x == k)) := by
        simp [List.filter_cons, hk]
      by_cases hs : getMessageKey m ∈ seen
      · have u1 : removeDupGo (k :: seen) (m :: t)
            = removeDupGo (k :: seen) t := by
          simp [removeDupGo, List.mem_cons, hs]
        have u3 : removeDupGo seen
              (m :: t.filter (fun x => !(getMessageKey x == k)))
            = removeDupGo seen (t.filter (fun x => !(getMessageKey x == k)))
            := by
          simp [removeDupGo, hs]
        rw [u1, u2, u3]
        exact ih seen
      · have u1 : removeDupGo (k :: seen) (m :: t)
            = m :: removeDupGo (getMessageKey m :: k :: seen) t := by
          simp [removeDupGo, List.mem_cons, hk, hs]
        have u3 : removeDupGo seen
              (m :: t.filter (fun x => !(getMessageKey x == k)))
            = m :: removeDupGo (getMessageKey m :: seen)
                (t.filter (fun x => !(getMessageKey x == k))) := by
          simp [removeDupGo, hs]
        rw [u1, u2, u3,
          removeDupGo_congr (getMessageKey m :: k :: seen)
            (k :: getMessageKey m :: seen)
            (fun key => by simp [List.mem_cons]; tauto) t,
          ih (getMessageKey m :: seen)]

/-- Every input message's key is represented in the output (or was already
seen). -/
theorem removeDupGo_covers (seen : List String) (l : List RawMsg) :
    ∀ m ∈ l, getMessageKey m ∈ seen
      ∨ ∃ m', m' ∈ removeDupGo seen l
          ∧ getMessageKey m' = getMessageKey m := by
  induction l generalizing seen with
  | nil => simp
  | cons a t ih =>
    intro m hm
    rcases List.mem_cons.mp hm with rfl | hmt
    · by_cases hsa : getMessageKey m ∈ seen
      · exact Or.inl hsa
      · refine Or.inr ⟨m, ?_, rfl⟩
        have hunf : removeDupGo seen (m :: t)
            = m :: removeDupGo (getMessageKey m :: seen) t := by
          simp [removeDupGo, hsa]
        rw [hunf]
        exact List.mem_cons_self _ _
    · by_cases hsa : getMessageKey a ∈ seen
      · have hunf : removeDupGo seen (a :: t) = removeDupGo seen t := by
          simp [removeDupGo, hsa]
        rw [hunf]
        exact ih seen m hmt
      · have hunf : removeDupGo seen (a :: t)
            = a :: removeDupGo (getMessageKey a :: seen) t := by
          simp [removeDupGo, hsa]
        rw [hunf]
        rcases ih (getMessageKey a :: seen) m hmt with h | ⟨m', hm', hk⟩
        · rcases List.mem_cons.mp h with heq | hseen
          · exact Or.inr ⟨a, List.mem_cons_self _ _, heq.symm⟩
          · exact Or.inl hseen
        · exact Or.inr ⟨m', List.mem_cons_of_mem _ hm', hk⟩

/-- Filtering a replicated list with a predicate satisfied by the element
keeps everything. -/
theorem filter_replicate_of_pos {α : Type} (p : α → Bool) (a : α)
    (h : p a = true) (n : Nat) :
    (List.replicate n a).filter p = List.replicate n a := by
  induction n with
  | zero => rfl
  | succ n ih => simp [List.replicate_succ, List.filter_cons, h, ih]

/-- Counting with a predicate falsified by the element gives zero. -/
theorem countP_replicate_of_neg {α : Type} (p : α → Bool) (a : α)
    (h : p a = false) (n : Nat) :
    (List.replicate n a).countP p = 0 := by
  induction n with
  | zero => rfl
  | succ n ih => simp [List.replicate_succ, List.countP_cons, h, ih]

/-- Once a message's key is seen, all its copies are dropped. -/
theorem removeDupGo_replicate_seen (seen : List String) (a : RawMsg)
    (h : getMessageKey a ∈ seen) (n : Nat) :
    removeDupGo seen (List.replicate n a) = [] := by
  induction n with
  | zero => rfl
  | succ n ih => simp [List.replicate_succ, removeDupGo, h, ih]

/-- A valid message validates in any number of copies. -/
theorem validateMessages_replicate (m : RawMsg)
    (h : validateMessage m = .ok ()) (n : Nat) :
    validateMessages (List.replicate n m) = .ok () := by
  induction n with
  | zero => rfl
  | succ n ih => simp [List.replicate_succ, validateMessages, h, ih]

/-! ## Claim C10 -/

/-- C10: for every successful `filter` call the counters are conserved —
every processed message is accounted for by exactly one of the three
filtering stages or the final output — and `finalCount` is the length of
the returned message list. -/
theorem filter_stats_conservation (input : FilterInput) (r : FilterResult)
    (h : filter input = .ok r) :
    r.stats.totalProcessed
        = r.stats.filteredBySubscription + r.stats.filteredByTimePeriod
          + r.stats.duplicatesRemoved + r.stats.finalCount
    ∧ r.stats.finalCount = r.messages.length := by
  obtain ⟨msgs, subs, p, hr⟩ : ∃ msgs subs p, r = filterCore msgs subs p := by
    unfold filter at h
    rcases hv : validateInput input with e | u
    · rw [hv] at h
      simp at h
    · rw [hv] at h
      rcases input with ⟨ms, sc, pd⟩
      rcases ms with _ | ms <;> rcases sc with _ | sc <;>
        rcases pd with _ | pd <;> simp at h
      exact ⟨ms, sc, pd, h.symm⟩
  subst hr
  have h1 : ((msgs.filter (fun m => inSubscribed subs m)).length)
      + msgs.countP (fun m => !inSubscribed subs m) = msgs.length :=
    length_filter_add_countP_not _ _
  have h2 : (((msgs.filter (fun m => inSubscribed subs m)).filter
        (fun m => isMessageInPeriod m p)).length)
      + (msgs.filter (fun m => inSubscribed subs m)).countP
          (fun m => !isMessageInPeriod m p)
      = (msgs.filter (fun m => inSubscribed subs m)).length :=
    length_filter_add_countP_not _ _
  have h3 : (removeDuplicates ((msgs.filter (fun m => inSubscribed subs m)).filter
        (fun m => isMessageInPeriod m p))).length
      ≤ ((msgs.filter (fun m => inSubscribed subs m)).filter
        (fun m => isMessageInPeriod m p)).length :=
    removeDupGo_length_le [] _
  unfold filterCore
  refine ⟨?_, rfl⟩
  dsimp only
  omega

/-- Witness for `filter_stats_conservation` at the concrete one-message
input `inputRep 1`. -/
theorem filter_stats_conservation_witness :
    ∃ r, filter (inputRep 1) = .ok r
      ∧ r.stats.totalProcessed
          = r.stats.filteredBySubscription + r.stats.filteredByTimePeriod
            + r.stats.duplicatesRemoved + r.stats.finalCount
      ∧ r.stats.finalCount = r.messages.length :=
  ⟨filterCore [mRep] ["chat_001"] period0, by rfl,
    filter_stats_conservation (inputRep 1) _ (by rfl)⟩

/-! ## Claim C6 -/

/-- C6, counterexample: the dedup key is the colon-joined rendering
`chat:sender:timestamp:text`, which is not injective in the tuple.  The
two distinct tuples (`chat "a:b"`, `sender "c"`) and (`chat "a"`,
`sender "b:c"`) produce the same key, so the second message is dropped as
a "duplicate": `finalCount = 1`, `duplicatesRemoved = 1`, even though no
exact tuple repeats. -/
theorem dedup_key_collision_counterexample :
    mColl1.chat_id ≠ mColl2.chat_id
    ∧ getMessageKey mColl1 = getMessageKey mColl2
    ∧ (filter inputColl).toOption.map
        (fun r => (r.messages, r.stats.finalCount, r.stats.duplicatesRemoved))
      = some ([mColl1], 1, 1) := by
  refine ⟨by decide, by decide, by decide⟩

/-- C6, amended: deduplication drops a surviving message exactly when its
colon-joined key `chat_id:sender_id:timestamp:text` repeats an earlier
surviving message's key (for exact tuple repeats the keys always coincide,
but distinct tuples whose renderings align across the `:` separators are
also conflated); the first occurrence wins, the relative order of kept
messages is preserved (sublist), no two kept messages share a key, every
surviving message's key is represented, and a batch of `n ≥ 1` copies of
one in-scope message yields `finalCount = 1` and
`duplicatesRemoved = n - 1`. -/
theorem removeDuplicates_spec_amended :
    (∀ l : List RawMsg, (removeDuplicates l).Sublist l
      ∧ ((removeDuplicates l).map getMessageKey).Nodup)
    ∧ (∀ (m : RawMsg) (l : List RawMsg),
        removeDuplicates (m :: l)
          = m :: removeDuplicates
              (l.filter (fun x => !(getMessageKey x == getMessageKey m))))
    ∧ (∀ (l : List RawMsg), ∀ m ∈ l,
        ∃ m', m' ∈ removeDuplicates l
          ∧ getMessageKey m' = getMessageKey m)
    ∧ (∀ n : Nat, 1 ≤ n →
        (filter (inputRep n)).toOption.map
            (fun r => (r.stats.finalCount, r.stats.duplicatesRemoved))
          = some (1, n - 1)) := by
  refine ⟨fun l => ⟨removeDupGo_sublist [] l, (removeDupGo_keys [] l).1⟩,
    ?_, ?_, ?_⟩
  · intro m l
    unfold removeDuplicates
    have hunf : removeDupGo [] (m :: l)
        = m :: removeDupGo [getMessageKey m] l := by
      simp [removeDupGo]
    rw [hunf, removeDupGo_seen_filter]
  · intro l m hm
    rcases removeDupGo_covers [] l m hm with h | h
    · simp at h
    · exact h
  · intro n hn
    obtain ⟨k, rfl⟩ : ∃ k, n = k + 1 := ⟨n - 1, by omega⟩
    have hvm : validateMessage mRep = .ok () := by rfl
    have hval : validateInput (inputRep (k + 1)) = .ok () := by
      show validateMessages (List.replicate (k + 1) mRep) = .ok ()
      exact validateMessages_replicate mRep hvm _
    have hfil : filter (inputRep (k + 1))
        = .ok (filterCore (List.replicate (k + 1) mRep) ["chat_001"]
            period0) := by
      unfold filter
      rw [hval]
      rfl
    have hsub : inSubscribed ["chat_001"] mRep = true := by rfl
    have hper : isMessageInPeriod mRep period0 = true := by rfl
    have e1 : (List.replicate (k + 1) mRep).filter
          (fun m => inSubscribed ["chat_001"] m)
        = List.replicate (k + 1) mRep :=
      filter_replicate_of_pos (fun m => inSubscribed ["chat_001"] m)
        mRep hsub (k + 1)
    have e2 : (List.replicate (k + 1) mRep).countP
          (fun m => !inSubscribed ["chat_001"] m) = 0 :=
      countP_replicate_of_neg (fun m => !inSubscribed ["chat_001"] m)
        mRep (by simp [hsub]) (k + 1)
    have e3 : (List.replicate (k + 1) mRep).filter
          (fun m => isMessageInPeriod m period0)
        = List.replicate (k + 1) mRep :=
      filter_replicate_of_pos (fun m => isMessageInPeriod m period0)
        mRep hper (k + 1)
    have e4 : (List.replicate (k + 1) mRep).countP
          (fun m => !isMessageInPeriod m period0) = 0 :=
      countP_replicate_of_neg (fun m => !isMessageInPeriod m period0)
        mRep (by simp [hper]) (k + 1)
    have e5 : removeDuplicates (List.replicate (k + 1) mRep) = [mRep] := by
      unfold removeDuplicates
      rw [List.replicate_succ]
      have hunf : removeDupGo [] (mRep :: List.replicate k mRep)
          = mRep :: removeDupGo [getMessageKey mRep]
              (List.replicate k mRep) := by
        simp [removeDupGo]
      rw [hunf,
        removeDupGo_replicate_seen _ _ (List.mem_cons_self _ _) k]
    rw [hfil]
    unfold filterCore
    dsimp only
    rw [e1, e2, e3, e4, e5]
    simp [Except.toOption]

/-- Witness for `removeDuplicates_spec_amended` at the triplicate
scenario. -/
theorem removeDuplicates_spec_amended_witness :
    (1 : Nat) ≤ 3
    ∧ (filter (inputRep 3)).toOption.map
        (fun r => (r.stats.finalCount, r.stats.duplicatesRemoved))
      = some (1, 2) :=
  ⟨by decide, removeDuplicates_spec_amended.2.2.2 3 (by decide)⟩

/-! ## Claim C4 -/

/-- Per-message validation succeeds exactly on messages with the four
required fields. -/
theorem validateMessage_ok_iff (m : RawMsg) :
    validateMessage m = .ok () ↔ validMsgB m = true := by
  unfold validateMessage validMsgB
  cases h1 : validStrField m.chat_id <;>
    cases h2 : validStrField m.sender_id <;>
      cases h3 : isValidTimestamp m.timestamp <;>
        cases h4 : m.text.isSome <;> simp [h1, h2, h3, h4]

/-- The validation loop succeeds exactly when every message is valid. -/
theorem validateMessages_ok_iff (l : List RawMsg) :
    validateMessages l = .ok () ↔ l.all validMsgB = true := by
  induction l with
  | nil => simp [validateMessages]
  | cons m t ih =>
    rw [List.all_cons]
    cases hm : validateMessage m with
    | error e =>
      have hb : validMsgB m = false := by
        cases hvb : validMsgB m
        · rfl
        · exact absurd ((validateMessage_ok_iff m).mpr hvb) (by simp [hm])
      simp [validateMessages, hm, hb]
    | ok u =>
      cases u
      have hb : validMsgB m = true := (validateMessage_ok_iff m).mp hm
      simp [validateMessages, hm, hb, ih]

/-- Any error of the validation loop is one of the fixed per-message
constraint descriptions. -/
theorem validateMessages_error_mem (l : List RawMsg) (e : String)
    (h : validateMessages l = .error e) : e ∈ validationMessages := by
  induction l with
  | nil => simp [validateMessages] at h
  | cons m t ih =>
    unfold validateMessages at h
    cases hm : validateMessage m with
    | error e' =>
      rw [hm] at h
      injection h with he
      subst he
      unfold validateMessage at hm
      split_ifs at hm <;> (injection hm with he'; subst he'; decide)
    | ok u =>
      cases u
      rw [hm] at h
      exact ih h

/-- `validateInput` succeeds exactly on inputs satisfying claim C4's
validity constraints. -/
theorem validateInput_ok_iff (input : FilterInput) :
    validateInput input = .ok () ↔ claimedValidB input = true := by
  rcases input with ⟨ms, sc, pd⟩
  rcases ms with _ | ms
  · simp [validateInput, claimedValidB]
  rcases sc with _ | sc
  · simp [validateInput, claimedValidB]
  rcases pd with _ | pd
  · simp [validateInput, claimedValidB]
  cases hs : isValidTimestamp pd.start
  · simp [validateInput, claimedValidB, hs]
  cases he : isValidTimestamp pd.stop
  · simp [validateInput, claimedValidB, hs, he]
  obtain ⟨ts, hts⟩ : ∃ t, pd.start = some t := by
    cases hps : pd.start
    · rw [hps] at hs; simp [isValidTimestamp] at hs
    · exact ⟨_, rfl⟩
  obtain ⟨te, hte⟩ : ∃ t, pd.stop = some t := by
    cases hpe : pd.stop
    · rw [hpe] at he; simp [isValidTimestamp] at he
    · exact ⟨_, rfl⟩
  obtain ⟨sv, hsv⟩ : ∃ v, ts.epoch = some v := by
    rw [hts] at hs
    have hsome : ts.epoch.isSome = true := by
      simp only [isValidTimestamp, Bool.and_eq_true] at hs
      exact hs.1.2
    exact Option.isSome_iff_exists.mp hsome
  obtain ⟨ev, hev⟩ : ∃ v, te.epoch = some v := by
    rw [hte] at he
    have hsome : te.epoch.isSome = true := by
      simp only [isValidTimestamp, Bool.and_eq_true] at he
      exact he.1.2
    exact Option.isSome_iff_exists.mp hsome
  have h1 : epochOf pd.start = some sv := by rw [hts]; simpa [epochOf]
  have h2 : epochOf pd.stop = some ev := by rw [hte]; simpa [epochOf]
  by_cases hlt : sv < ev
  · have hge : ¬ ev ≤ sv := by omega
    simp [validateInput, claimedValidB, hs, he, h1, h2, jsDateGe, hge, hlt,
      validateMessages_ok_iff]
  · have hge : ev ≤ sv := by omega
    simp [validateInput, claimedValidB, hs, he, h1, h2, jsDateGe, hge, hlt]

/-- Any error of `validateInput` is one of the fixed constraint
descriptions. -/
theorem validateInput_error_mem (input : FilterInput) (e : String)
    (h : validateInput input = .error e) : e ∈ validationMessages := by
  rcases input with ⟨ms, sc, pd⟩
  rcases ms with _ | ms
  · simp only [validateInput] at h
    injection h with he
    subst he
    decide
  rcases sc with _ | sc
  · simp only [validateInput] at h
    injection h with he
    subst he
    decide
  rcases pd with _ | pd
  · simp only [validateInput] at h
    injection h with he
    subst he
    decide
  simp only [validateInput] at h
  split_ifs at h
  · injection h with he; subst he; decide
  · injection h with he; subst he; decide
  · injection h with he; subst he; decide
  · exact validateMessages_error_mem ms e h

/-- C4: `filter` succeeds exactly on inputs satisfying all of the claim's
validity constraints, and on any violation it raises immediately with one
of the fixed error messages naming the violated constraint.  Because the
failing call returns only the error (the `Except.error` branch carries no
message list and no counters), no partial output is produced. -/
theorem filter_validation_spec (input : FilterInput) :
    ((∃ r, filter input = .ok r) ↔ claimedValidB input = true)
    ∧ (claimedValidB input = false →
        ∃ e, filter input = .error e ∧ e ∈ validationMessages) := by
  constructor
  · constructor
    · rintro ⟨r, hr⟩
      by_contra hc
      have hne : validateInput input ≠ .ok () := fun hok => by
        rw [(validateInput_ok_iff input).mp hok] at hc
        exact hc rfl
      unfold filter at hr
      rcases hv : validateInput input with e | u
      · rw [hv] at hr
        simp at hr
      · cases u
        exact hne hv
    · intro hc
      have hok := (validateInput_ok_iff input).mpr hc
      rcases input with ⟨ms, sc, pd⟩
      rcases ms with _ | ms
      · simp [claimedValidB] at hc
      rcases sc with _ | sc
      · simp [claimedValidB] at hc
      rcases pd with _ | pd
      · simp [claimedValidB] at hc
      refine ⟨filterCore ms sc pd, ?_⟩
      unfold filter
      rw [hok]
  · intro hc
    have hne : validateInput input ≠ .ok () := fun hok => by
      rw [(validateInput_ok_iff input).mp hok] at hc
      cases hc
    rcases hv : validateInput input with e | u
    · refine ⟨e, ?_, validateInput_error_mem input e hv⟩
      unfold filter
      rw [hv]
    · cases u
      exact absurd hv hne

/-- Witness for `filter_validation_spec` at the `start ≥ end` input. -/
theorem filter_validation_spec_witness :
    claimedValidB inputBadPeriod = false
    ∧ ∃ e, filter inputBadPeriod = .error e ∧ e ∈ validationMessages :=
  ⟨by rfl, (filter_validation_spec inputBadPeriod).2 (by rfl)⟩

/-! ## Claim C8 -/

/-- All months have between 28 and 31 days. -/
theorem monthLen_bounds (y m : Int) :
    28 ≤ monthLen y m ∧ monthLen y m ≤ 31 := by
  unfold monthLen
  split_ifs <;> omega

/-- `nextMonth` advances the total month count by one and stays inside
`[0, 11]`. -/
theorem nextMonth_months (y m : Int) :
    (nextMonth y m).1 * 12 + (nextMonth y m).2 = y * 12 + m + 1
    ∧ (0 ≤ m → m ≤ 11 →
        0 ≤ (nextMonth y m).2 ∧ (nextMonth y m).2 ≤ 11) := by
  unfold nextMonth
  split_ifs with h
  · exact ⟨by show (y + 1) * 12 + 0 = y * 12 + m + 1; omega,
      fun _ _ => ⟨by show (0:Int) ≤ 0; omega, by show (0:Int) ≤ 11; omega⟩⟩
  · exact ⟨by show y * 12 + (m + 1) = y * 12 + m + 1; omega,
      fun h0 h1 => ⟨by show (0:Int) ≤ m + 1; omega,
        by show m + 1 ≤ 11; omega⟩⟩

/-- `prevMonth` decreases the total month count by one and stays inside
`[0, 11]`. -/
theorem prevMonth_months (y m : Int) :
    (prevMonth y m).1 * 12 + (prevMonth y m).2 = y * 12 + m - 1
    ∧ (0 ≤ m → m ≤ 11 →
        0 ≤ (prevMonth y m).2 ∧ (prevMonth y m).2 ≤ 11) := by
  unfold prevMonth
  split_ifs with h
  · exact ⟨by show (y - 1) * 12 + 11 = y * 12 + m - 1; omega,
      fun _ _ => ⟨by show (0:Int) ≤ 11; omega, by show (11:Int) ≤ 11; omega⟩⟩
  · exact ⟨by show y * 12 + (m - 1) = y * 12 + m - 1; omega,
      fun h0 h1 => ⟨by show (0:Int) ≤ m - 1; omega,
        by show m - 1 ≤ 11; omega⟩⟩

/-- One-step unfolding of `rollFAux`. -/
theorem rollFAux_succ (fuel : Nat) (y m d : Int) :
    rollFAux (fuel + 1) y m d
      = if d ≤ monthLen y m then ⟨y, m, d⟩
        else rollFAux fuel (nextMonth y m).1 (nextMonth y m).2
          (d - monthLen y m) := rfl

/-- One-step unfolding of `rollBAux`. -/
theorem rollBAux_succ (fuel : Nat) (y m d : Int) :
    rollBAux (fuel + 1) y m d
      = if 1 ≤ d then rollFAux d.toNat y m d
        else rollBAux fuel (prevMonth y m).1 (prevMonth y m).2
          (d + monthLen (prevMonth y m).1 (prevMonth y m).2) := rfl

/-- Full characterisation of the forward day roll: it lands on a valid
day of a valid month, advances the total month count by at most `d / 28`
(and by at least one exactly when the starting day count overflows the
starting month), and is the identity on in-range day counts. -/
theorem rollFAux_spec (n : Nat) : ∀ (y m d : Int), 0 ≤ m → m ≤ 11 →
    1 ≤ d → d.toNat ≤ n →
    ∃ c : CivilDate, rollFAux n y m d = c
      ∧ 0 ≤ c.month ∧ c.month ≤ 11
      ∧ 1 ≤ c.day ∧ c.day ≤ monthLen c.year c.month
      ∧ y * 12 + m ≤ c.year * 12 + c.month
      ∧ c.year * 12 + c.month ≤ y * 12 + m + d / 28
      ∧ (d ≤ monthLen y m → c = ⟨y, m, d⟩)
      ∧ (monthLen y m < d → y * 12 + m + 1 ≤ c.year * 12 + c.month) := by
  induction n with
  | zero =>
    intro y m d hm0 hm1 hd1 hfuel
    exact absurd hfuel (by omega)
  | succ n ih =>
    intro y m d hm0 hm1 hd1 hfuel
    by_cases hle : d ≤ monthLen y m
    · refine ⟨⟨y, m, d⟩, ?_, hm0, hm1, hd1, hle,
        by show y * 12 + m ≤ y * 12 + m; omega,
        by show y * 12 + m ≤ y * 12 + m + d / 28; omega,
        fun _ => rfl, fun hcon => absurd hcon (by omega)⟩
      rw [rollFAux_succ, if_pos hle]
    · have hml := monthLen_bounds y m
      obtain ⟨hnm1, hnm2⟩ := nextMonth_months y m
      obtain ⟨hm0', hm1'⟩ := hnm2 hm0 hm1
      have hd1' : 1 ≤ d - monthLen y m := by omega
      have hfuel' : (d - monthLen y m).toNat ≤ n := by omega
      obtain ⟨c, hc, p1, p2, p3, p4, p5, p6, -, -⟩ :=
        ih (nextMonth y m).1 (nextMonth y m).2 (d - monthLen y m)
          hm0' hm1' hd1' hfuel'
      refine ⟨c, ?_, p1, p2, p3, p4, by omega, by omega,
        fun hcon => absurd hcon (by omega), fun _ => by omega⟩
      rw [rollFAux_succ, if_neg hle]
      exact hc

/-- Civil-date characterisation of `new Date(y, m, d)` over the range of
values `parseNumericDate` can produce (`m` from a 1-2 digit month token
minus one, `d` from a 1-2 digit day token): `getMonth()` returns the
requested month index exactly when the requested day exists in the
requested month, and in that case the constructed date is exactly
`(y, m, d)`. -/
theorem jsMakeDate_spec (y m d : Int) (hm0 : -1 ≤ m) (hm1 : m ≤ 98)
    (hd0 : 0 ≤ d) (hd1 : d ≤ 99) :
    ((jsMakeDate y m d).month = m
        ↔ (0 ≤ m ∧ m ≤ 11 ∧ 1 ≤ d ∧ d ≤ monthLen y m))
    ∧ (0 ≤ m → m ≤ 11 → 1 ≤ d → d ≤ monthLen y m
        → jsMakeDate y m d = ⟨y, m, d⟩) := by
  have hq : (y * 12 + m) / 12 * 12 + (y * 12 + m) % 12 = y * 12 + m := by
    omega
  have hr0 : 0 ≤ (y * 12 + m) % 12 := by omega
  have hr11 : (y * 12 + m) % 12 ≤ 11 := by omega
  by_cases hd : 1 ≤ d
  · have hstart : jsMakeDate y m d
        = rollFAux d.toNat ((y * 12 + m) / 12) ((y * 12 + m) % 12) d := by
      unfold jsMakeDate
      rw [show (1 - d).toNat + 1 = 0 + 1 by omega, rollBAux_succ,
        if_pos hd]
    obtain ⟨c, hc, p1, p2, p3, p4, p5, p6, pid, pgt⟩ :=
      rollFAux_spec d.toNat ((y * 12 + m) / 12) ((y * 12 + m) % 12) d
        hr0 hr11 hd (le_refl _)
    rw [hstart, hc]
    have hdiv28 : d / 28 ≤ 3 := by omega
    constructor
    · constructor
      · intro hmonth
        by_cases hmval : 0 ≤ m ∧ m ≤ 11
        · have hqy : (y * 12 + m) / 12 = y ∧ (y * 12 + m) % 12 = m := by
            omega
          by_cases hdle : d ≤ monthLen y m
          · exact ⟨hmval.1, hmval.2, hd, hdle⟩
          · exfalso
            have hgt : monthLen ((y * 12 + m) / 12) ((y * 12 + m) % 12)
                < d := by rw [hqy.1, hqy.2]; omega
            have := pgt hgt
            omega
        · exact absurd hmonth (by omega)
      · rintro ⟨hm0', hm1', hd', hdle⟩
        have hqy : (y * 12 + m) / 12 = y ∧ (y * 12 + m) % 12 = m := by
          omega
        have hcid := pid (by rw [hqy.1, hqy.2]; exact hdle)
        rw [hcid, hqy.2]
    · intro hm0' hm1' hd' hdle
      have hqy : (y * 12 + m) / 12 = y ∧ (y * 12 + m) % 12 = m := by
        omega
      have hcid := pid (by rw [hqy.1, hqy.2]; exact hdle)
      rw [hcid, hqy.1, hqy.2]
  · have hd0' : d = 0 := by omega
    subst hd0'
    rcases hP : prevMonth ((y * 12 + m) / 12) ((y * 12 + m) % 12)
      with ⟨py, pm⟩
    obtain ⟨hpm1, hpm2⟩ :=
      prevMonth_months ((y * 12 + m) / 12) ((y * 12 + m) % 12)
    rw [hP] at hpm1 hpm2
    dsimp only at hpm1 hpm2
    obtain ⟨hp0, hp11⟩ := hpm2 hr0 hr11
    have hlen := monthLen_bounds py pm
    have hstart : jsMakeDate y m 0
        = rollFAux (0 + monthLen py pm).toNat py pm
            (0 + monthLen py pm) := by
      unfold jsMakeDate
      rw [show ((1 : Int) - 0).toNat + 1 = (0 + 1) + 1 by norm_num,
        rollBAux_succ, if_neg (by omega), hP]
      dsimp only
      rw [rollBAux_succ, if_pos (by omega)]
    obtain ⟨c, hc, p1, p2, p3, p4, p5, p6, pid, -⟩ :=
      rollFAux_spec (0 + monthLen py pm).toNat py pm
        (0 + monthLen py pm) hp0 hp11 (by omega) (le_refl _)
    have hcid := pid (by omega)
    rw [hstart, hc, hcid]
    constructor
    · constructor
      · intro hmonth
        exfalso
        have hm2 : pm = m := hmonth
        by_cases hmval : 0 ≤ m ∧ m ≤ 11
        · omega
        · omega
      · rintro ⟨-, -, hd', -⟩
        exact absurd hd' (by omega)
    · intro _ _ hd' _
      exact absurd hd' (by omega)

/-- C8: `parseNumericDate` interprets a numeric token day-first (first
number as day of month, second as month), defaulting an omitted year to
the current year (with the constructor's 1900-adjustment for two-digit
values, see `yearAdjOf`); the `getMonth()` equality it tests holds exactly
when the day-first reading is a valid calendar date, so the parser falls
back to the month-first construction precisely on invalid day-first
readings. -/
theorem parseNumericDate_dayFirst_fallback (day month : Nat)
    (year : Option Nat) (currentYear : Int)
    (hday : day ≤ 99) (hmonth : month ≤ 99) :
    ((jsMakeDate (yearAdjOf year currentYear) ((month : Int) - 1)
          (day : Int)).month = (month : Int) - 1
      ↔ (1 ≤ month ∧ month ≤ 12 ∧ 1 ≤ day
          ∧ (day : Int) ≤ monthLen (yearAdjOf year currentYear)
              ((month : Int) - 1)))
    ∧ (1 ≤ month → month ≤ 12 → 1 ≤ day
        → (day : Int) ≤ monthLen (yearAdjOf year currentYear)
            ((month : Int) - 1)
        → parseNumericDate day month year currentYear
          = some ⟨yearAdjOf year currentYear, (month : Int) - 1,
              (day : Int)⟩)
    ∧ (¬ (1 ≤ month ∧ month ≤ 12 ∧ 1 ≤ day
          ∧ (day : Int) ≤ monthLen (yearAdjOf year currentYear)
              ((month : Int) - 1))
        → parseNumericDate day month year currentYear
          = some (jsMakeDate (yearAdjOf year currentYear)
              ((day : Int) - 1) (month : Int))) := by
  obtain ⟨hiff, hid⟩ := jsMakeDate_spec (yearAdjOf year currentYear)
    ((month : Int) - 1) (day : Int) (by omega) (by omega) (by omega)
    (by omega)
  have hbridge : (0 ≤ (month : Int) - 1 ∧ (month : Int) - 1 ≤ 11
        ∧ 1 ≤ (day : Int) ∧ (day : Int) ≤ monthLen
            (yearAdjOf year currentYear) ((month : Int) - 1))
      ↔ (1 ≤ month ∧ month ≤ 12 ∧ 1 ≤ day
        ∧ (day : Int) ≤ monthLen (yearAdjOf year currentYear)
            ((month : Int) - 1)) := by
    constructor
    · rintro ⟨a, b, c, dd⟩
      exact ⟨by omega, by omega, by omega, dd⟩
    · rintro ⟨a, b, c, dd⟩
      exact ⟨by omega, by omega, by omega, dd⟩
  refine ⟨hiff.trans hbridge, ?_, ?_⟩
  · intro h1 h2 h3 h4
    have hvalid : (jsMakeDate (yearAdjOf year currentYear)
          ((month : Int) - 1) (day : Int)).month = (month : Int) - 1 :=
      hiff.mpr ⟨by omega, by omega, by omega, h4⟩
    have hdate := hid (by omega) (by omega) (by omega) h4
    unfold parseNumericDate
    rw [if_neg (by simpa using hvalid), hdate]
  · intro hninv
    have hne : (jsMakeDate (yearAdjOf year currentYear)
          ((month : Int) - 1) (day : Int)).month ≠ (month : Int) - 1 :=
      fun hx => hninv ((hiff.trans hbridge).mp hx)
    unfold parseNumericDate
    rw [if_pos hne]

/-- Witness for `parseNumericDate_dayFirst_fallback` at the token
`25/12` with no year and current year 2025: parsed day-first as
25 December 2025 (month index 11). -/
theorem parseNumericDate_dayFirst_fallback_witness :
    parseNumericDate 25 12 none 2025 = some ⟨2025, 11, 25⟩ :=
  (parseNumericDate_dayFirst_fallback 25 12 none 2025 (by norm_num)
    (by norm_num)).2.1 (by norm_num) (by norm_num) (by norm_num)
    (by decide)

end WhatsappAgent
